import Mathlib

/-!
Verification of the StitchFlow paginated PDF composition engine.

This file gives a shallow embedding of the engine in
`src/frontend/src/services/pdfExport/pdfEngine.js` (PDFEngine), the footer
finalizer in `pdfFooter.js`, the continuation header and status resolution
in `WeavingSetDetail.jsx`, and the theme constants in `pdfStyles.js`;
lengths are rationals in millimetres, exactly as in the source (unit 'mm').
Theorems below settle the frozen claims about pagination, cursor
discipline, footer stamping, the info grid, badges, and renderer-state
independence of the drawing primitives.
-/

namespace StitchFlow

/-! ## Geometry and theme constants, from pdfStyles.js (SPACING / PAGE) -/

/-- SPACING.pageMarginTop (mm). -/
def marginT : ℚ := 12

/-- SPACING.pageMarginBottom (mm). -/
def marginB : ℚ := 18

/-- SPACING.pageMarginLeft (mm). -/
def marginL : ℚ := 14

/-- SPACING.pageMarginRight (mm). -/
def marginR : ℚ := 14

/-- PAGE.height for portrait A4 (mm). -/
def pageH : ℚ := 297

/-- PAGE.width for portrait A4 (mm). -/
def pageW : ℚ := 210

/-- SPACING.footerHeight (mm), the footer reserve kept clear by pagination. -/
def footerHeight : ℚ := 14

/-- contentW = pageW − pageMarginLeft − pageMarginRight, as computed in the
PDFEngine constructor. -/
def contentW : ℚ := pageW - marginL - marginR

/-- SPACING.badgePadH (mm). -/
def badgePadH : ℚ := 3

/-- SPACING.badgePadV (mm). -/
def badgePadV : ℚ := 3/2

/-- FONTS.size.badge (pt). -/
def badgeFontSize : ℚ := 7

/-! ## Engine state (pagination model)

The fields mirror the mutable state of PDFEngine that pagination touches:
`y` (cursor), `currentPage`, the number of pages of the underlying jsPDF
document (`pages`, what `doc.getNumberOfPages()` / the `pageCount` getter
report), and `headerHeight`.  `hdrCalls` is a ghost counter incremented at
the single engine site that invokes a continuation-header callback
(`headerFn(this)` in `addPage`); it lets theorems count invocations. -/

structure Engine where
  y : ℚ
  currentPage : ℕ
  pages : ℕ
  headerHeight : ℚ
  hdrCalls : ℕ
deriving Repr, DecidableEq

/-- A continuation-header callback, as passed to checkPageBreak / addPage:
in the source it receives the engine and may mutate it (the templates pass
drawContinuationHeader). -/
abbrev HeaderFn := Engine → Engine

/-- Engine state right after the PDFEngine constructor: cursor at the top
margin, one page, no header chrome yet. -/
def initEngine : Engine :=
  { y := marginT, currentPage := 1, pages := 1, headerHeight := 0, hdrCalls := 0 }

/-- The part of addPage before the callback runs: doc.addPage() (one more
page, current page advances) and the cursor reset to the top margin. -/
def pageReset (s : Engine) : Engine :=
  { s with pages := s.pages + 1, currentPage := s.currentPage + 1, y := marginT }

/-- Ghost-instrumented invocation of a continuation-header callback: runs
the callback and bumps the invocation counter (the engine source calls
headerFn exactly once at this site). -/
def invokeHdrFn (f : HeaderFn) (s : Engine) : Engine :=
  let s2 := f s
  { s2 with hdrCalls := s2.hdrCalls + 1 }

/-- PDFEngine.addPage (pdfEngine.js lines 55-63): add a page, reset the
cursor to the top margin, and if a headerFn was supplied invoke it and set
the cursor to headerHeight + 4. -/
def addPage (fn : Option HeaderFn) (s : Engine) : Engine :=
  let s1 := pageReset s
  match fn with
  | none => s1
  | some f =>
      let s2 := invokeHdrFn f s1
      { s2 with y := s2.headerHeight + 4 }

/-- Bottom limit used by checkPageBreak: pageH − marginB − SPACING.footerHeight. -/
def bottomLimit : ℚ := pageH - marginB - footerHeight

/-- PDFEngine.checkPageBreak (pdfEngine.js lines 65-72): break (and report
true) exactly when y + neededHeight exceeds the bottom limit. -/
def checkPageBreak (needed : ℚ) (fn : Option HeaderFn) (s : Engine) : Bool × Engine :=
  if s.y + needed > bottomLimit then (true, addPage fn s) else (false, s)

/-- drawContinuationHeader (WeavingSetDetail.jsx lines 1383-1429), as it
acts on the engine state: headerH = 10, it sets
engine.headerHeight := engine.marginT + headerH and
engine.y := engine.headerHeight + 4 (drawing marks are not part of the
pagination model). -/
def contHeader : HeaderFn := fun s =>
  { s with headerHeight := marginT + 10, y := (marginT + 10) + 4 }

/-- Height of the chrome the continuation header actually draws
(headerH = 10 in drawContinuationHeader). -/
def contHeaderDrawnH : ℚ := 10

/-! ## Claims C1 and C10: checkPageBreak -/

/-- C1: checkPageBreak(neededHeight, continuationHeaderFn) creates a new
page if and only if cursor.y + neededHeight exceeds
pageHeight − bottomMargin − footerReserve; when it breaks it resets the
cursor to topMargin (the state handed to the callback has y = topMargin),
invokes the continuation callback exactly once if one was supplied
(ghost counter +1, for callbacks that only draw chrome, i.e. neither
touch the ghost counter nor add pages themselves), then sets the cursor
to chromeHeight + gap (headerHeight after the callback, plus the fixed
4mm gap); without a callback the cursor stays at topMargin; and it
returns true exactly when a break occurred. -/
theorem checkPageBreak_correct (s : Engine) (needed : ℚ) (fn : Option HeaderFn)
    (hfn : ∀ f, fn = some f → ∀ t, (f t).hdrCalls = t.hdrCalls ∧ (f t).pages = t.pages) :
    ((checkPageBreak needed fn s).1 = true ↔ s.y + needed > bottomLimit) ∧
    ((checkPageBreak needed fn s).1 = true →
      (checkPageBreak needed fn s).2.pages = s.pages + 1 ∧
      (pageReset s).y = marginT ∧
      (fn = none →
        (checkPageBreak needed fn s).2.y = marginT ∧
        (checkPageBreak needed fn s).2.hdrCalls = s.hdrCalls) ∧
      (∀ f, fn = some f →
        (checkPageBreak needed fn s).2.hdrCalls = s.hdrCalls + 1 ∧
        (checkPageBreak needed fn s).2.y = (f (pageReset s)).headerHeight + 4)) ∧
    ((checkPageBreak needed fn s).1 = false ↔ ¬ s.y + needed > bottomLimit) := by
  unfold checkPageBreak
  by_cases h : s.y + needed > bottomLimit
  · simp only [if_pos h]
    refine ⟨by simp [h], ?_, by simp [h]⟩
    intro _
    refine ⟨?_, rfl, ?_, ?_⟩
    · cases fn with
      | none => simp [addPage, pageReset]
      | some f =>
          simp only [addPage, invokeHdrFn]
          have hp := (hfn f rfl (pageReset s)).2
          simpa [pageReset] using hp
    · rintro rfl
      simp [addPage, pageReset]
    · rintro f rfl
      constructor
      · simp only [addPage, invokeHdrFn]
        rw [(hfn f rfl (pageReset s)).1]
        simp [pageReset]
      · simp [addPage, invokeHdrFn]
  · simp [if_neg h, h]

/-- Witness for C1 at a concrete input: cursor at 260 with 10mm needed
(260 + 10 > 265) and the real continuation header as callback; the
callback preserves the ghost counter, a break occurs, and the cursor lands
on headerHeight + 4 = 26. -/
theorem checkPageBreak_correct_witness :
    ((checkPageBreak 10 (some contHeader) { initEngine with y := 260 }).1 = true ↔
      (260 : ℚ) + 10 > bottomLimit) ∧
    ((checkPageBreak 10 (some contHeader) { initEngine with y := 260 }).1 = true →
      (checkPageBreak 10 (some contHeader) { initEngine with y := 260 }).2.pages = 1 + 1 ∧
      (pageReset { initEngine with y := 260 }).y = marginT ∧
      ((some contHeader = none) →
        (checkPageBreak 10 (some contHeader) { initEngine with y := 260 }).2.y = marginT ∧
        (checkPageBreak 10 (some contHeader) { initEngine with y := 260 }).2.hdrCalls = 0) ∧
      (∀ f, some contHeader = some f →
        (checkPageBreak 10 (some contHeader) { initEngine with y := 260 }).2.hdrCalls = 0 + 1 ∧
        (checkPageBreak 10 (some contHeader) { initEngine with y := 260 }).2.y =
          (f (pageReset { initEngine with y := 260 })).headerHeight + 4)) ∧
    ((checkPageBreak 10 (some contHeader) { initEngine with y := 260 }).1 = false ↔
      ¬ (260 : ℚ) + 10 > bottomLimit) :=
  checkPageBreak_correct { initEngine with y := 260 } 10 (some contHeader)
    (by intro f hf t; injection hf with hh; subst hh; exact ⟨rfl, rfl⟩)

/-- C10: when checkPageBreak reports no break, the engine state is
completely unchanged — cursor y, current page, page count, header height
all keep their values and the continuation callback is not invoked. -/
theorem checkPageBreak_no_break_frame (s : Engine) (needed : ℚ) (fn : Option HeaderFn)
    (h : (checkPageBreak needed fn s).1 = false) :
    (checkPageBreak needed fn s).2.y = s.y ∧
    (checkPageBreak needed fn s).2.currentPage = s.currentPage ∧
    (checkPageBreak needed fn s).2.pages = s.pages ∧
    (checkPageBreak needed fn s).2.headerHeight = s.headerHeight ∧
    (checkPageBreak needed fn s).2.hdrCalls = s.hdrCalls := by
  unfold checkPageBreak at h ⊢
  by_cases hc : s.y + needed > bottomLimit
  · simp [if_pos hc] at h
  · simp [if_neg hc]

/-- Witness for C10 at a concrete input: from the fresh engine, a 10mm
block fits (12 + 10 ≤ 265), no break is reported, and every field is
unchanged. -/
theorem checkPageBreak_no_break_frame_witness :
    (checkPageBreak 10 (some contHeader) initEngine).2.y = initEngine.y ∧
    (checkPageBreak 10 (some contHeader) initEngine).2.currentPage = initEngine.currentPage ∧
    (checkPageBreak 10 (some contHeader) initEngine).2.pages = initEngine.pages ∧
    (checkPageBreak 10 (some contHeader) initEngine).2.headerHeight = initEngine.headerHeight ∧
    (checkPageBreak 10 (some contHeader) initEngine).2.hdrCalls = initEngine.hdrCalls :=
  checkPageBreak_no_break_frame initEngine 10 (some contHeader)
    (by norm_num [checkPageBreak, initEngine, bottomLimit, pageH, marginB, footerHeight, marginT])

/-! ## Layout composers (their action on the engine cursor)

Each definition mirrors the corresponding PDFEngine method in
pdfEngine.js, restricted to the state the pagination claims are about
(cursor, pages, header height); the marks drawn are modelled separately
for the renderer-state claims. -/

/-- A JavaScript field value as infoGrid receives it: null, undefined, or
a (possibly empty) string. -/
inductive JSVal where
  | vNull
  | vUndef
  | vStr (s : String)
deriving Repr, DecidableEq

/-- An infoGrid field: label, value, and the per-field flags the source
reads. -/
structure Field where
  label : String
  value : JSVal
  fullWidth : Bool := false
  bold : Bool := false
  highlight : Bool := false
deriving Repr, DecidableEq

/-- Value-cell text of infoGrid (pdfEngine.js lines 286-288): null,
undefined and the empty string render as the em-dash placeholder. -/
def renderVal : JSVal → String
  | .vNull => "—"
  | .vUndef => "—"
  | .vStr s => if s = "" then "—" else s

/-- The label:value pair infoGrid draws for one field. -/
def renderPair (f : Field) : String × String :=
  (f.label ++ ":", renderVal f.value)

/-- SPACING-default info grid row height (rowH = 5.5 in infoGrid). -/
def infoRowH : ℚ := 11/2

/-- The forEach loop of infoGrid over the (already filtered) fields,
tracking the column index and the running row y, and collecting the
rendered label:value pairs in order. -/
def infoGridLoop : List Field → ℕ → ℚ → List (String × String) × ℕ × ℚ
  | [], col, rowY => ([], col, rowY)
  | f :: rest, col, rowY =>
    if f.fullWidth then
      let rowY1 := if col = 1 then rowY + infoRowH else rowY
      let r := infoGridLoop rest 0 (rowY1 + infoRowH)
      (renderPair f :: r.1, r.2)
    else
      let next : ℕ × ℚ := if col + 1 = 2 then (0, rowY + infoRowH) else (col + 1, rowY)
      let r := infoGridLoop rest next.1 next.2
      (renderPair f :: r.1, r.2)

/-- PDFEngine.infoGrid (pdfEngine.js lines 245-317): filters out falsy
entries, renders the remaining fields two per row (full-width fields take
a whole row), and advances the cursor past the grid plus 2mm. -/
def infoGrid (fieldsOpt : List (Option Field)) (s : Engine) : List (String × String) × Engine :=
  let fields := fieldsOpt.filterMap id
  let r := infoGridLoop fields 0 s.y
  let rowY := if r.2.1 = 1 then r.2.2 + infoRowH else r.2.2
  (r.1, { s with y := rowY + 2 })

/-- PDFEngine.sectionHeader (pdfEngine.js lines 206-239): page-break check
for 14mm, then a bar of height 13 (with subtitle) or 9, cursor advanced by
that height plus 3. -/
def sectionHeader (hasSubtitle : Bool) (s : Engine) : Engine :=
  let s1 := (checkPageBreak 14 none s).2
  let h : ℚ := if hasSubtitle then 13 else 9
  { s1 with y := s1.y + h + 3 }

/-- PDFEngine.summaryBox (pdfEngine.js lines 323-374): totalH =
rows·5.5 + 8, page-break check for totalH + 4, cursor advanced by
totalH + 4. -/
def summaryBox (nRows : ℕ) (s : Engine) : Engine :=
  let totalH : ℚ := (nRows : ℚ) * (11/2) + 8
  let s1 := (checkPageBreak (totalH + 4) none s).2
  { s1 with y := s1.y + totalH + 4 }

/-- PDFEngine.metricCards (pdfEngine.js lines 398-440): cardH = 20,
page-break check for cardH + 4, cursor advanced by cardH + 4. -/
def metricCards (s : Engine) : Engine :=
  let s1 := (checkPageBreak (20 + 4) none s).2
  { s1 with y := s1.y + (20 + 4) }

/-- Default line height of writeLine (pdfEngine.js line 164):
lineH = size · 0.4 + 2. -/
def writeLineAdvance (size : ℚ) : ℚ := size * (2/5) + 2

/-- PDFEngine.writeLine with default options: draws at the cursor and
advances it by lineH; it performs no page-break check. -/
def writeLine (size : ℚ) (s : Engine) : Engine :=
  { s with y := s.y + writeLineAdvance size }

/-- PDFEngine.gap (pdfEngine.js lines 197-200): advances the cursor by the
given amount; no page-break check. -/
def gap (mm : ℚ) (s : Engine) : Engine :=
  { s with y := s.y + mm }

/-! ## Table composer

PDFEngine.table (pdfEngine.js lines 446-513) delegates the grid drawing
to jspdf-autotable, an external library that is not part of this
repository.  Modelled from the spec: the renderer backend contract (§6)
offers a tabular grid with automatic per-page header repetition and a
page hook, and §9 narrows it to a capability that renders the rows and
calls the hook whenever a new page begins; rows have uniform height, a
page takes successive rows while the next one still fits above the bottom
limit, and on every new page the column header row is redrawn at the top
before rows resume. -/

/-- One page of a rendered table: its (table-local, 1-based) page number,
whether the page hook fired for it, the indices of the body rows it
carries, and the y just below its last drawn row. -/
structure TPage where
  pageNo : ℕ
  hookFired : Bool
  rowIdxs : List ℕ
  endY : ℚ
deriving Repr, DecidableEq

/-- Drawing events of a table run, in temporal order. -/
inductive TEv where
  | hook (page : ℕ)
  | headerDrawn (page : ℕ)
  | rowDrawn (idx page : ℕ)
deriving Repr, DecidableEq

/-- Number of successive rows (at most n) that fit when drawn from y0:
a row is drawn only while y + rowH stays within the limit. -/
def fitCount (y0 rowH limit : ℚ) : ℕ → ℕ
  | 0 => 0
  | n + 1 => if y0 + rowH > limit then 0 else fitCount (y0 + rowH) rowH limit n + 1

/-- Continuation pages of a table run: each new page carries the redrawn
header at the top and as many remaining rows as fit (at least one, so an
over-tall row overflows instead of looping). -/
def contPages (rowH headerH limit topResume : ℚ) : ℕ → ℕ → ℕ → List TPage
  | _, 0, _ => []
  | i, m + 1, p =>
      let y0 := topResume + headerH
      let k := max (fitCount y0 rowH limit (m + 1)) 1
      { pageNo := p, hookFired := true, rowIdxs := List.range' i k,
        endY := y0 + (k : ℚ) * rowH }
        :: contPages rowH headerH limit topResume (i + k) (m + 1 - k) (p + 1)
termination_by _ m _ => m
decreasing_by
  have h1 : 1 ≤ max (fitCount (topResume + headerH) rowH limit (m + 1)) 1 :=
    le_max_right _ _
  omega

/-- A whole table run: the header is drawn at startY on the current page,
rows follow from startY + headerH, and overflowing rows spill onto
continuation pages. -/
def tableRun (rowH headerH limit topResume startY : ℚ) (nRows : ℕ) : List TPage :=
  let y0 := startY + headerH
  let k := fitCount y0 rowH limit nRows
  { pageNo := 1, hookFired := false, rowIdxs := List.range k,
    endY := y0 + (k : ℚ) * rowH }
    :: contPages rowH headerH limit topResume k (nRows - k) 2

/-- Events of one table page, in temporal order: the page hook (when it
fires) comes first, then the redrawn header, then the rows. -/
def pageEvents (tp : TPage) : List TEv :=
  (if tp.hookFired then [TEv.hook tp.pageNo] else []) ++
    TEv.headerDrawn tp.pageNo :: tp.rowIdxs.map (fun i => TEv.rowDrawn i tp.pageNo)

/-- The finalY of a table run (doc.lastAutoTable.finalY): y just below the
last drawn row, on the last page the table occupies. -/
def tableFinalY (tps : List TPage) : ℚ :=
  (tps.getLastD { pageNo := 1, hookFired := false, rowIdxs := [], endY := 0 }).endY

/-- PDFEngine.table: runs the capability from the current cursor, and in
its didDrawPage wiring syncs currentPage and invokes the supplied
continuation headerFn for every table page after the first; afterwards the
cursor is set to finalY + 4. -/
def tableOp (nRows : ℕ) (rowH headerH : ℚ) (fn : Option HeaderFn) (s : Engine) : Engine :=
  let tps := tableRun rowH headerH bottomLimit marginT s.y nRows
  let extra := tps.length - 1
  let s1 := (List.range extra).foldl
    (fun acc _ =>
      match fn with
      | none => acc
      | some f => invokeHdrFn f acc) s
  { s1 with
    pages := s.pages + extra,
    currentPage := s.currentPage + extra,
    y := tableFinalY tps + 4 }

/-! ## Composer operation sequences -/

/-- One engine composer operation, as in claim C2's list. -/
inductive Op where
  | opSectionHeader (hasSubtitle : Bool)
  | opInfoGrid (fields : List (Option Field))
  | opSummaryBox (nRows : ℕ)
  | opMetricCards
  | opWriteLine (size : ℚ)
  | opGap (mm : ℚ)
  | opTable (nRows : ℕ) (rowH headerH : ℚ) (fn : Option HeaderFn)

/-- The engine transition of one composer operation. -/
def step : Op → Engine → Engine
  | .opSectionHeader st, s => sectionHeader st s
  | .opInfoGrid fs, s => (infoGrid fs s).2
  | .opSummaryBox n, s => summaryBox n s
  | .opMetricCards, s => metricCards s
  | .opWriteLine sz, s => writeLine sz s
  | .opGap m, s => gap m s
  | .opTable n rh hh fn, s => tableOp n rh hh fn s

/-- Well-formedness of an operation as the claims use them: non-negative
gap amounts, font sizes and table dimensions. -/
def wfOp : Op → Prop
  | .opWriteLine sz => 0 ≤ sz
  | .opGap m => 0 ≤ m
  | .opTable _ rh hh _ => 0 ≤ rh ∧ 0 ≤ hh
  | _ => True

/-! ## Footer finalizer (pdfFooter.js) -/

/-- The page-indicator text _drawSingleFooter stamps (pdfFooter.js lines
215-216 and 224-229): the concatenation of pageText and totalText. -/
def pageIndicatorText (pageNum totalPages : ℕ) : String :=
  "Page " ++ toString pageNum ++ " of " ++ toString totalPages

/-- drawFooters (pdfFooter.js lines 36-70): reads the page count once,
then stamps pages 1..totalPages, each with its page indicator; the engine
session state is not changed.  The returned list holds, in page order, the
indicator text stamped on each page. -/
def drawFooters (s : Engine) : Engine × List String :=
  let totalPages := s.pages
  (s, (List.range totalPages).map (fun k => pageIndicatorText (k + 1) totalPages))

/-! ## Claim C4: footer second pass stamps Page i of N -/

/-- C4: drawFooters is a second pass after composition that iterates every
page 1..N, where N is the page count read once at call time, and stamps on
page i the indicator "Page i of N"; the same N appears on every page. -/
theorem drawFooters_stamps (s : Engine) :
    (drawFooters s).2.length = s.pages ∧
    (∀ i, i < s.pages →
      (drawFooters s).2[i]? = some (pageIndicatorText (i + 1) s.pages)) := by
  constructor
  · simp [drawFooters]
  · intro i hi
    simp [drawFooters, List.getElem?_map, List.getElem?_range, hi]

/-- Witness for C4 on a concrete two-page session: both stamps exist, read
"Page 1 of 2" and "Page 2 of 2", and carry the same total. -/
theorem drawFooters_stamps_witness :
    (1 : ℕ) < 2 ∧
    (drawFooters { initEngine with pages := 2 }).2[1]? = some "Page 2 of 2" := by
  refine ⟨by norm_num, ?_⟩
  have h := (drawFooters_stamps { initEngine with pages := 2 }).2 1 (by norm_num)
  simpa [pageIndicatorText] using h

/-! ## Claim C6: phase discipline

The PDFEngine constructor (pdfEngine.js lines 18-49) stores no phase
field, and drawFooters sets none; nothing in the engine rejects or alters
composition performed after footer finalization.  The claim that a phase
guard enforces Composing → Finalizing → Output is refuted below; what
holds is that the ordering is caller convention (the drawFooters doc
comment: call AFTER all content is written), and composing after
finalization silently proceeds and leaves the stamped totals stale. -/

/-- Counterexample to C6: from a session finalized at one page (footer
stamped "Page 1 of 1"), a further sectionHeader still composes — it is
not rejected, it breaks to a second page — so the stamped total is stale;
no phase guard exists in the engine. -/
theorem no_phase_guard_counterexample :
    (drawFooters (gap 250 initEngine)).2 = ["Page 1 of 1"] ∧
    (step (.opSectionHeader false) (drawFooters (gap 250 initEngine)).1).pages =
      (gap 250 initEngine).pages + 1 ∧
    (drawFooters (step (.opSectionHeader false) (drawFooters (gap 250 initEngine)).1)).2 ≠
      (drawFooters (gap 250 initEngine)).2 := by
  have h1 : gap 250 initEngine =
      { y := 262, currentPage := 1, pages := 1, headerHeight := 0, hdrCalls := 0 } := by
    norm_num [gap, initEngine, marginT]
  have h2 : step (.opSectionHeader false) (drawFooters (gap 250 initEngine)).1 =
      { y := 24, currentPage := 2, pages := 2, headerHeight := 0, hdrCalls := 0 } := by
    rw [show (drawFooters (gap 250 initEngine)).1 = gap 250 initEngine from rfl, h1]
    norm_num [step, sectionHeader, checkPageBreak, addPage, pageReset, bottomLimit,
      pageH, marginB, footerHeight, marginT]
  refine ⟨?_, ?_, ?_⟩
  · rw [h1]
    rfl
  · rw [h2, h1]
  · rw [h2, h1]
    decide

/-- C6 as amended: the Composing → Finalizing → Output ordering is caller
convention, not an engine-enforced guard: footer finalization leaves the
session state untouched (no phase is recorded anywhere), so every
composer operation behaves after finalization exactly as it would have
before it. -/
theorem finalize_is_convention (s : Engine) (op : Op) :
    (drawFooters s).1 = s ∧ step op (drawFooters s).1 = step op s :=
  ⟨rfl, rfl⟩

/-! ## Claim C7: infoGrid placeholders and row counts -/

/-- The pairs infoGridLoop renders are exactly one per field, in order,
whatever the fullWidth flags. -/
theorem infoGridLoop_pairs (fields : List Field) (col : ℕ) (rowY : ℚ) :
    (infoGridLoop fields col rowY).1 = fields.map renderPair := by
  induction fields generalizing col rowY with
  | nil => simp [infoGridLoop]
  | cons f rest ih =>
      by_cases hfw : f.fullWidth <;> simp [infoGridLoop, hfw, ih]

/-- Column and row-cursor bookkeeping of infoGridLoop on two-per-row
fields: after n fields from column col < 2, the column is (col + n) % 2
and the row cursor advanced by (col + n) / 2 rows. -/
theorem infoGridLoop_noFullWidth (fields : List Field)
    (hfw : ∀ f ∈ fields, f.fullWidth = false) :
    ∀ col rowY, col < 2 →
      (infoGridLoop fields col rowY).2.1 = (col + fields.length) % 2 ∧
      (infoGridLoop fields col rowY).2.2 =
        rowY + (((col + fields.length) / 2 : ℕ) : ℚ) * infoRowH := by
  induction fields with
  | nil =>
      intro col rowY hcol
      interval_cases col <;> simp [infoGridLoop]
  | cons f rest ih =>
      intro col rowY hcol
      have hf : f.fullWidth = false := hfw f (by simp)
      have hrest : ∀ g ∈ rest, g.fullWidth = false := fun g hg => hfw g (by simp [hg])
      interval_cases col
      · have h := ih hrest 1 rowY (by norm_num)
        simp only [infoGridLoop, hf, Bool.false_eq_true, if_false]
        norm_num
        refine ⟨?_, ?_⟩
        · rw [h.1]
          omega
        · rw [h.2]
          have hdiv : (1 + rest.length) / 2 = (rest.length + 1) / 2 := by omega
          rw [hdiv]
      · have h := ih hrest 0 (rowY + infoRowH) (by norm_num)
        simp only [infoGridLoop, hf, Bool.false_eq_true, if_false]
        norm_num
        refine ⟨?_, ?_⟩
        · rw [h.1]
          omega
        · rw [h.2]
          have hdiv : (1 + (rest.length + 1)) / 2 = (0 + rest.length) / 2 + 1 := by omega
          rw [hdiv]
          push_cast
          ring

/-- Filtering out falsy entries leaves a list of genuine fields alone. -/
theorem filterMap_id_map_some (l : List Field) : (l.map some).filterMap id = l := by
  induction l with
  | nil => simp
  | cons a t ih => simp [ih]

/-- C7: for a list of two-per-row fields given to infoGrid, a field whose
value is null, undefined or the empty string renders as the em-dash
placeholder rather than being skipped; the number of rendered label:value
pairs equals the number of supplied fields, the grid advances the cursor
by ceil(count / 2) rows (plus the fixed 2mm), and the operation is total
— missing values never cause an error. -/
theorem infoGrid_placeholder_and_counts (fields : List Field)
    (hfw : ∀ f ∈ fields, f.fullWidth = false) (s : Engine) :
    (infoGrid (fields.map some) s).1.length = fields.length ∧
    (∀ i, i < fields.length →
      (infoGrid (fields.map some) s).1[i]? =
        (fields[i]?).map renderPair) ∧
    (∀ f ∈ fields,
      (f.value = .vNull ∨ f.value = .vUndef ∨ f.value = .vStr "") →
      (renderPair f).2 = "—") ∧
    (infoGrid (fields.map some) s).2.y =
      s.y + (((fields.length + 1) / 2 : ℕ) : ℚ) * infoRowH + 2 := by
  have hfm := filterMap_id_map_some fields
  obtain ⟨hcol, hrow⟩ := infoGridLoop_noFullWidth fields hfw 0 s.y (by norm_num)
  refine ⟨?_, ?_, ?_, ?_⟩
  · simp [infoGrid, hfm, infoGridLoop_pairs]
  · intro i hi
    simp [infoGrid, hfm, infoGridLoop_pairs, List.getElem?_map]
  · rintro f hf (hv | hv | hv) <;> simp [renderPair, renderVal, hv]
  · simp only [infoGrid, hfm]
    rw [hcol, hrow, Nat.zero_add]
    by_cases hm : fields.length % 2 = 1
    · rw [if_pos hm]
      have hdiv : (fields.length + 1) / 2 = fields.length / 2 + 1 := by omega
      rw [hdiv]
      push_cast
      ring
    · rw [if_neg hm]
      have hdiv : (fields.length + 1) / 2 = fields.length / 2 := by omega
      rw [hdiv]

/-- The spec's example grid: five two-per-row fields where field 3 has an
empty value and field 4 a null one. -/
def exampleFields : List Field :=
  [{ label := "A", value := .vStr "1" },
   { label := "B", value := .vStr "2" },
   { label := "C", value := .vStr "" },
   { label := "D", value := .vNull },
   { label := "E", value := .vStr "5" }]

/-- Witness for C7 on the spec's five-field example: all five pairs are
rendered (none skipped), the empty field 3 shows the em-dash, and the grid
takes ceil(5/2) = 3 rows: y = 12 + 3·5.5 + 2 = 30.5. -/
theorem infoGrid_placeholder_witness :
    (infoGrid (exampleFields.map some) initEngine).1.length = 5 ∧
    (infoGrid (exampleFields.map some) initEngine).1[2]? = some ("C:", "—") ∧
    (infoGrid (exampleFields.map some) initEngine).2.y = 61/2 := by
  have h := infoGrid_placeholder_and_counts exampleFields (by decide) initEngine
  refine ⟨?_, ?_, ?_⟩
  · rw [h.1]; rfl
  · have h2 := h.2.1 2 (by norm_num [exampleFields])
    rw [h2]
    rfl
  · rw [h.2.2.2]
    norm_num [initEngine, marginT, infoRowH, exampleFields]

/-! ## Claims C2 and C3: cursor discipline and page counts -/

/-- A no-callback page-break check that leaves the page unchanged did not
break, hence changed nothing. -/
theorem checkPageBreak_none_same_page (needed : ℚ) (s : Engine)
    (h : (checkPageBreak needed none s).2.currentPage = s.currentPage) :
    (checkPageBreak needed none s).2 = s := by
  unfold checkPageBreak at h ⊢
  by_cases hc : s.y + needed > bottomLimit
  · rw [if_pos hc] at h
    simp [addPage, pageReset] at h
  · rw [if_neg hc]

/-- The infoGrid loop never moves the row cursor upward. -/
theorem infoGridLoop_rowY_le (fields : List Field) :
    ∀ col rowY, rowY ≤ (infoGridLoop fields col rowY).2.2 := by
  induction fields with
  | nil => intro col rowY; simp [infoGridLoop]
  | cons f rest ih =>
      intro col rowY
      have hR : (0 : ℚ) ≤ infoRowH := by norm_num [infoRowH]
      simp only [infoGridLoop]
      split_ifs with h1 h2 h3
      · exact le_trans (by linarith) (ih 0 (rowY + infoRowH + infoRowH))
      · exact le_trans (by linarith) (ih 0 (rowY + infoRowH))
      · exact le_trans (by linarith) (ih 0 (rowY + infoRowH))
      · exact ih (col + 1) rowY

/-- C2 as amended: over the composer operations (sectionHeader, infoGrid,
summaryBox, metricCards, table, writeLine with non-negative size, gap with
non-negative amount) the cursor y is monotonically non-decreasing while
the current page stays the same; and each page creation (addPage) resets
the cursor exactly once — to topMargin when no continuation callback is
supplied, and to the callback-set headerHeight plus the fixed 4mm gap
when one is (not to topMargin + chromeHeight). -/
theorem cursor_monotone_and_reset (op : Op) (s : Engine) (hwf : wfOp op) :
    ((step op s).currentPage = s.currentPage → s.y ≤ (step op s).y) ∧
    (∀ t, (addPage none t).y = marginT) ∧
    (∀ t f, (addPage (some f) t).y = (f (pageReset t)).headerHeight + 4) := by
  refine ⟨?_, fun t => rfl, fun t f => rfl⟩
  cases op with
  | opSectionHeader hasSubtitle =>
      intro hpage
      simp only [step, sectionHeader] at hpage ⊢
      rw [checkPageBreak_none_same_page 14 s hpage]
      by_cases hsub : hasSubtitle <;> simp [hsub] <;> linarith
  | opInfoGrid fields =>
      intro hpage
      simp only [step, infoGrid]
      have h := infoGridLoop_rowY_le (fields.filterMap id) 0 s.y
      by_cases hc : (infoGridLoop (fields.filterMap id) 0 s.y).2.1 = 1
      · rw [if_pos hc]
        have : (0 : ℚ) ≤ infoRowH := by norm_num [infoRowH]
        linarith
      · rw [if_neg hc]
        linarith
  | opSummaryBox n =>
      intro hpage
      simp only [step, summaryBox] at hpage ⊢
      rw [checkPageBreak_none_same_page _ s hpage]
      have : (0 : ℚ) ≤ (n : ℚ) := by positivity
      linarith
  | opMetricCards =>
      intro hpage
      simp only [step, metricCards] at hpage ⊢
      rw [checkPageBreak_none_same_page _ s hpage]
      linarith
  | opWriteLine sz =>
      intro hpage
      simp only [step, writeLine, writeLineAdvance]
      have hsz : (0 : ℚ) ≤ sz := hwf
      linarith
  | opGap m =>
      intro hpage
      simp only [step, gap]
      have hm : (0 : ℚ) ≤ m := hwf
      linarith
  | opTable n rh hh fn =>
      intro hpage
      obtain ⟨hrh, hhh⟩ := hwf
      simp only [step, tableOp, tableRun, List.length_cons] at hpage ⊢
      have hlen : (contPages rh hh bottomLimit marginT
          (fitCount (s.y + hh) rh bottomLimit n)
          (n - fitCount (s.y + hh) rh bottomLimit n) 2).length = 0 := by
        omega
      have hnil : contPages rh hh bottomLimit marginT
          (fitCount (s.y + hh) rh bottomLimit n)
          (n - fitCount (s.y + hh) rh bottomLimit n) 2 = [] :=
        List.length_eq_zero.mp hlen
      rw [hnil]
      have : (0 : ℚ) ≤ (fitCount (s.y + hh) rh bottomLimit n : ℚ) * rh := by positivity
      show s.y ≤ s.y + hh + (fitCount (s.y + hh) rh bottomLimit n : ℚ) * rh + 4
      linarith

/-- Witness for C2 at a concrete operation: a 5mm gap is well-formed,
stays on the page, and only moves the cursor down. -/
theorem cursor_monotone_and_reset_witness :
    wfOp (.opGap 5) ∧
    (((step (.opGap 5) initEngine).currentPage = initEngine.currentPage →
        initEngine.y ≤ (step (.opGap 5) initEngine).y) ∧
      (∀ t, (addPage none t).y = marginT) ∧
      (∀ t f, (addPage (some f) t).y = (f (pageReset t)).headerHeight + 4)) :=
  ⟨by norm_num [wfOp], cursor_monotone_and_reset (.opGap 5) initEngine (by norm_num [wfOp])⟩

/-- Counterexample to C2 as stated: after a page break taken with the
standard continuation header (drawn chrome height 10, headerHeight field
22), the cursor is 26 — which is neither topMargin + drawn chrome height
(22) nor topMargin + headerHeight (34); the actual reset value is
headerHeight + 4. -/
theorem cursor_reset_counterexample :
    (checkPageBreak 55 (some contHeader) (gap 250 initEngine)).1 = true ∧
    (checkPageBreak 55 (some contHeader) (gap 250 initEngine)).2.y = 26 ∧
    marginT + contHeaderDrawnH ≠ (26 : ℚ) ∧
    marginT + (checkPageBreak 55 (some contHeader) (gap 250 initEngine)).2.headerHeight ≠
      (26 : ℚ) := by
  norm_num [checkPageBreak, gap, initEngine, marginT, bottomLimit, pageH, marginB,
    footerHeight, addPage, pageReset, invokeHdrFn, contHeader, contHeaderDrawnH]

/-- The template discipline for non-splittable blocks: a page-break check
for the block's height, with the continuation header supplied, followed by
drawing the block (advancing the cursor by its height) — the pattern of
every engine.checkPageBreak(h, continuationHeader) call in the templates. -/
def guardedBlock (h : ℚ) (fn : Option HeaderFn) (s : Engine) : Engine :=
  let s1 := (checkPageBreak h fn s).2
  { s1 with y := s1.y + h }

/-- A sequence of n equal guarded blocks. -/
def runBlocks (h : ℚ) (fn : Option HeaderFn) : ℕ → Engine → Engine
  | 0, s => s
  | n + 1, s => runBlocks h fn n (guardedBlock h fn s)

/-- A sequence of n writeLine calls at a given font size (writeLine
performs no page-break check). -/
def writeLines (size : ℚ) : ℕ → Engine → Engine
  | 0, s => s
  | n + 1, s => writeLines size n (writeLine size s)

/-- writeLine n times only advances the cursor; it never creates pages. -/
theorem writeLines_eq (size : ℚ) :
    ∀ (n : ℕ) (s : Engine),
      writeLines size n s = { s with y := s.y + (n : ℚ) * writeLineAdvance size } := by
  intro n
  induction n with
  | zero => intro s; cases s; simp [writeLines]
  | succ m ih =>
      intro s
      rw [writeLines, ih, writeLine]
      cases s
      simp only [Engine.mk.injEq, and_true, true_and]
      push_cast
      ring

/-- A guarded block that fits entirely above the bottom limit draws in
place. -/
theorem guardedBlock_fits (h : ℚ) (fn : Option HeaderFn) (s : Engine)
    (hfit : s.y + h ≤ bottomLimit) :
    guardedBlock h fn s = { s with y := s.y + h } := by
  unfold guardedBlock checkPageBreak
  rw [if_neg (by linarith)]

/-- Guarded blocks that all fit on the current page accumulate on it. -/
theorem runBlocks_in_page (h : ℚ) (fn : Option HeaderFn) (hh : 0 ≤ h) :
    ∀ (n : ℕ) (s : Engine), s.y + (n : ℚ) * h ≤ bottomLimit →
      runBlocks h fn n s = { s with y := s.y + (n : ℚ) * h } := by
  intro n
  induction n with
  | zero =>
      intro s hfit
      cases s
      simp [runBlocks]
  | succ m ih =>
      intro s hfit
      have hm : (0 : ℚ) ≤ (m : ℚ) * h := by positivity
      have h1 : s.y + h ≤ bottomLimit := by push_cast at hfit; linarith
      rw [runBlocks, guardedBlock_fits h fn s h1,
        ih { s with y := s.y + h } (by push_cast at hfit ⊢; linarith)]
      cases s
      simp only [Engine.mk.injEq, and_true, true_and]
      push_cast
      ring

/-- Running a + b guarded blocks is running a, then b. -/
theorem runBlocks_split (h : ℚ) (fn : Option HeaderFn) :
    ∀ (a b : ℕ) (s : Engine),
      runBlocks h fn (a + b) s = runBlocks h fn b (runBlocks h fn a s) := by
  intro a
  induction a with
  | zero => intro b s; rw [Nat.zero_add]; rfl
  | succ m ih =>
      intro b s
      rw [show m + 1 + b = (m + b) + 1 from by omega, runBlocks, ih, runBlocks]

/-- Each guarded block with the standard continuation header advances the
page count and the callback-invocation count in lockstep. -/
theorem guardedBlock_pages_hdrCalls (h : ℚ) (s : Engine) :
    (guardedBlock h (some contHeader) s).pages + s.hdrCalls =
      (guardedBlock h (some contHeader) s).hdrCalls + s.pages := by
  unfold guardedBlock checkPageBreak
  by_cases hc : s.y + h > bottomLimit
  · rw [if_pos hc]
    show s.pages + 1 + s.hdrCalls = s.hdrCalls + 1 + s.pages
    omega
  · rw [if_neg hc]
    show s.pages + s.hdrCalls = s.hdrCalls + s.pages
    omega

/-- C3 as amended: pages are created only by guarded blocks, each created
page fires the supplied continuation callback exactly once (so the
callback count always equals pages created, i.e. pages − 1 from a fresh
document); the break threshold is cursor + block > pageHeight −
bottomMargin − footerReserve = 265mm, i.e. cumulative content beyond
bottomLimit − topMargin = 253mm on page 1 — not 267mm: 31 guarded 10mm
blocks (310mm) from a fresh engine give exactly 2 pages and one
continuation-header call, with no break through block 25 (cumulative
250mm, cursor 262) and the break at block 26 (260mm > 253 although
260 ≤ 267). -/
theorem pageCount_greedy_blocks :
    (∀ (h : ℚ) (n : ℕ) (s : Engine),
      (runBlocks h (some contHeader) n s).pages + s.hdrCalls =
        (runBlocks h (some contHeader) n s).hdrCalls + s.pages) ∧
    bottomLimit - marginT = 253 ∧
    (runBlocks 10 (some contHeader) 25 initEngine).pages = 1 ∧
    (runBlocks 10 (some contHeader) 25 initEngine).y = 262 ∧
    (runBlocks 10 (some contHeader) 26 initEngine).pages = 2 ∧
    (runBlocks 10 (some contHeader) 31 initEngine).pages = 2 ∧
    (runBlocks 10 (some contHeader) 31 initEngine).hdrCalls = 1 := by
  have hgen : ∀ (h : ℚ) (n : ℕ) (s : Engine),
      (runBlocks h (some contHeader) n s).pages + s.hdrCalls =
        (runBlocks h (some contHeader) n s).hdrCalls + s.pages := by
    intro h n
    induction n with
    | zero =>
        intro s
        show s.pages + s.hdrCalls = s.hdrCalls + s.pages
        omega
    | succ m ih =>
        intro s
        rw [runBlocks]
        have h1 := ih (guardedBlock h (some contHeader) s)
        have h2 := guardedBlock_pages_hdrCalls h s
        omega
  have e25 : runBlocks 10 (some contHeader) 25 initEngine = { initEngine with y := 262 } := by
    rw [runBlocks_in_page 10 (some contHeader) (by norm_num) 25 initEngine
      (by norm_num [initEngine, marginT, bottomLimit, pageH, marginB, footerHeight])]
    norm_num [initEngine, marginT]
  have e26 : runBlocks 10 (some contHeader) 26 initEngine =
      { y := 36, currentPage := 2, pages := 2, headerHeight := 22, hdrCalls := 1 } := by
    rw [show (26 : ℕ) = 25 + 1 from rfl, runBlocks_split, e25]
    show runBlocks 10 (some contHeader) 0 (guardedBlock 10 (some contHeader) _) = _
    rw [runBlocks]
    norm_num [guardedBlock, checkPageBreak, bottomLimit, pageH, marginB, footerHeight,
      addPage, pageReset, invokeHdrFn, contHeader, initEngine, marginT]
  have e31 : runBlocks 10 (some contHeader) 31 initEngine =
      { y := 86, currentPage := 2, pages := 2, headerHeight := 22, hdrCalls := 1 } := by
    rw [show (31 : ℕ) = 26 + 5 from rfl, runBlocks_split, e26,
      runBlocks_in_page 10 (some contHeader) (by norm_num) 5 _
        (by norm_num [bottomLimit, pageH, marginB, footerHeight])]
    norm_num
  refine ⟨hgen, by norm_num [bottomLimit, marginT, pageH, marginB, footerHeight],
    ?_, ?_, ?_, ?_, ?_⟩
  · rw [e25]; rfl
  · rw [e25]
  · rw [e26]
  · rw [e31]
  · rw [e31]

/-- Counterexample to C3 as stated: 31 writeLine calls at size 20 compose
exactly 310mm of cumulative content (each advances 20·0.4 + 2 = 10mm), yet
the engine stays on 1 page — not the claimed ceil(310/U) = 2 — because
writeLine performs no page-break check; the cursor simply runs to 322mm,
past the 297mm page. -/
theorem pageCount_ceil_counterexample :
    (31 : ℚ) * writeLineAdvance 20 = 310 ∧
    (writeLines 20 31 initEngine).pages ≠ 2 ∧
    (writeLines 20 31 initEngine).y = 322 := by
  refine ⟨by norm_num [writeLineAdvance], ?_, ?_⟩
  · rw [writeLines_eq]
    norm_num [initEngine]
  · rw [writeLines_eq]
    norm_num [initEngine, marginT, writeLineAdvance]

/-! ## Claim C8: badge sizing and status-color resolution -/

/-- An RGB triple, as the arrays in pdfStyles.js. -/
abbrev Color := ℕ × ℕ × ℕ

/-- A status color triple from STATUS_COLORS: background, text and border
colors. -/
structure ColorTriple where
  bg : Color
  textC : Color
  borderC : Color
deriving Repr, DecidableEq

/-- STATUS_COLORS (pdfStyles.js lines 231-252), as an association list in
source order. -/
def statusColors : List (String × ColorTriple) :=
  [("active", ⟨(220, 252, 231), (22, 163, 74), (134, 239, 172)⟩),
   ("inactive", ⟨(243, 244, 246), (107, 114, 128), (209, 213, 219)⟩),
   ("pending", ⟨(254, 243, 199), (217, 119, 6), (252, 211, 77)⟩),
   ("completed", ⟨(220, 252, 231), (22, 163, 74), (134, 239, 172)⟩),
   ("cancelled", ⟨(254, 226, 226), (220, 38, 38), (252, 165, 165)⟩),
   ("draft", ⟨(243, 244, 246), (107, 114, 128), (209, 213, 219)⟩),
   ("approved", ⟨(220, 252, 231), (22, 163, 74), (134, 239, 172)⟩),
   ("rejected", ⟨(254, 226, 226), (220, 38, 38), (252, 165, 165)⟩),
   ("in_progress", ⟨(219, 234, 254), (37, 99, 235), (147, 197, 253)⟩),
   ("on_hold", ⟨(254, 243, 199), (217, 119, 6), (252, 211, 77)⟩),
   ("delivered", ⟨(220, 252, 231), (22, 163, 74), (134, 239, 172)⟩),
   ("in_transit", ⟨(219, 234, 254), (37, 99, 235), (147, 197, 253)⟩),
   ("default", ⟨(243, 244, 246), (55, 65, 81), (209, 213, 219)⟩)]

/-- STATUS_COLORS.default, the neutral fallback triple. -/
def defaultStatusColor : ColorTriple :=
  ⟨(243, 244, 246), (55, 65, 81), (209, 213, 219)⟩

/-- ASCII lowercasing of one character, the effect of toLowerCase on the
status keys (all keys are ASCII). -/
def lowerChar (c : Char) : Char :=
  if 65 ≤ c.toNat ∧ c.toNat ≤ 90 then Char.ofNat (c.toNat + 32) else c

/-- Replacement of each maximal whitespace run by a single underscore
(the regex replace(\s+, underscore) in _resolveStatus), tracking whether
the previous character was whitespace. -/
def collapseWsAux : Bool → List Char → List Char
  | _, [] => []
  | prevWs, c :: rest =>
      if c.isWhitespace then
        if prevWs then collapseWsAux true rest
        else '_' :: collapseWsAux true rest
      else c :: collapseWsAux false rest

/-- Status-key normalization of _resolveStatus (WeavingSetDetail.jsx line
1461): lowercase, whitespace runs to underscores. -/
def normalizeStatus (status : String) : String :=
  String.mk (collapseWsAux false (status.data.map lowerChar))

/-- _resolveStatus (WeavingSetDetail.jsx lines 1460-1463): look the
normalized key up in STATUS_COLORS, falling back to the default triple. -/
def resolveStatus (status : String) : ColorTriple :=
  match statusColors.lookup (normalizeStatus status) with
  | some c => c
  | none => defaultStatusColor

/-- A text-measurement function of the renderer backend
(doc.getTextWidth after setting font size and style), as PDFEngine's
textWidth uses it: text, font size, font style to width. -/
abbrev MeasureFn := String → ℚ → String → ℚ

/-- What one badge call draws and returns. -/
structure BadgeDraw where
  rectX : ℚ
  rectY : ℚ
  rectW : ℚ
  rectH : ℚ
  labelText : String
  returned : ℚ
deriving Repr, DecidableEq

/-- PDFEngine.badge (pdfEngine.js lines 380-392): uppercase the label,
measure it at the badge font in bold, draw a rounded rect of width
textWidth + 2·padH and height fontSize·0.4 + 2·padV at (x, y − bH + padV),
draw the text, and return the badge width. -/
def badge (measure : MeasureFn) (label : String) (x y : ℚ) : BadgeDraw :=
  let t := label.toUpper
  let tW := measure t badgeFontSize "bold"
  let bW := tW + badgePadH * 2
  let bH := badgeFontSize * (2/5) + badgePadV * 2
  { rectX := x, rectY := y - bH + badgePadV, rectW := bW, rectH := bH,
    labelText := t, returned := bW }

/-- C8: every badge's pill width is exactly the measured width of the
uppercased label plus twice the fixed horizontal padding, and badge
returns that width; status resolution maps "active" to the active color
triple, and any status whose normalized key is absent from STATUS_COLORS
resolves to the default neutral triple without erroring. -/
theorem badge_width_and_status (measure : MeasureFn) (label : String) (x y : ℚ) :
    (badge measure label x y).rectW =
      measure label.toUpper badgeFontSize "bold" + 2 * badgePadH ∧
    (badge measure label x y).returned = (badge measure label x y).rectW ∧
    resolveStatus "active" =
      ⟨(220, 252, 231), (22, 163, 74), (134, 239, 172)⟩ ∧
    (∀ st, (statusColors.lookup (normalizeStatus st)).isNone = true →
      resolveStatus st = defaultStatusColor) := by
  refine ⟨by simp [badge]; ring, rfl, by decide, ?_⟩
  intro st hst
  unfold resolveStatus
  rw [Option.isNone_iff_eq_none] at hst
  rw [hst]

/-- Witness for C8 at concrete inputs: the unrecognized status "archived"
has no STATUS_COLORS key and resolves to the default triple; a badge for
"ok" under a length-based measure returns its own pill width. -/
theorem badge_width_and_status_witness :
    (statusColors.lookup (normalizeStatus "archived")).isNone = true ∧
    resolveStatus "archived" = defaultStatusColor ∧
    (badge (fun t _ _ => (t.length : ℚ)) "ok" 0 10).returned =
      (badge (fun t _ _ => (t.length : ℚ)) "ok" 0 10).rectW := by
  refine ⟨by decide, ?_, ?_⟩
  · exact (badge_width_and_status (fun t _ _ => (t.length : ℚ)) "ok" 0 10).2.2.2
      "archived" (by decide)
  · exact (badge_width_and_status (fun t _ _ => (t.length : ℚ)) "ok" 0 10).2.1

/-! ## Claim C9: primitives never rely on pre-existing renderer state

The renderer backend (jsPDF) keeps a current fill color, draw color, line
width, font and text color; each PDFEngine primitive first sets whatever
it uses (setFill / setStroke / setLineWidth / setFont, pdfEngine.js lines
83-103) and only then draws.  The state model below records those
settables; each mark embeds the state values the backend reads when the
mark is made. -/

/-- The renderer's mutable draw-context state. -/
structure RState where
  fill : Color
  stroke : Color
  lineW : ℚ
  fontSize : ℚ
  fontFamily : String
  fontStyle : String
  textColor : Color
deriving Repr, DecidableEq

/-- A mark put on the page, carrying the draw-context values it was made
with. -/
inductive Mark where
  | fillRect (x y w h radius : ℚ) (fill : Color)
  | fillStrokeRect (x y w h radius : ℚ) (fill stroke : Color) (lw : ℚ)
  | line (x1 y1 x2 y2 : ℚ) (stroke : Color) (lw : ℚ)
  | textMark (s : String) (x y size : ℚ) (family style : String)
      (color : Color) (align : String)
deriving Repr, DecidableEq

/-- PDFEngine.setFill: doc.setFillColor. -/
def setFillR (c : Color) (r : RState) : RState := { r with fill := c }

/-- PDFEngine.setStroke: doc.setDrawColor. -/
def setStrokeR (c : Color) (r : RState) : RState := { r with stroke := c }

/-- PDFEngine.setLineWidth: doc.setLineWidth. -/
def setLineWidthR (w : ℚ) (r : RState) : RState := { r with lineW := w }

/-- PDFEngine.setFont: doc.setFontSize, doc.setFont(helvetica, style),
doc.setTextColor. -/
def setFontR (size : ℚ) (style : String) (color : Color) (r : RState) : RState :=
  { r with
    fontSize := size,
    fontFamily := "helvetica",
    fontStyle := style,
    textColor := color }

/-- doc.rect / doc.roundedRect: reads the current fill (and for style FD
the current draw color and line width). -/
def docRect (x y w h radius : ℚ) (withStroke : Bool) (r : RState) : List Mark :=
  if withStroke then [.fillStrokeRect x y w h radius r.fill r.stroke r.lineW]
  else [.fillRect x y w h radius r.fill]

/-- doc.line: reads the current draw color and line width. -/
def docLine (x1 y1 x2 y2 : ℚ) (r : RState) : List Mark :=
  [.line x1 y1 x2 y2 r.stroke r.lineW]

/-- doc.text: reads the current font size, font, and text color. -/
def docText (s : String) (x y : ℚ) (align : String) (r : RState) : List Mark :=
  [.textMark s x y r.fontSize r.fontFamily r.fontStyle r.textColor align]

/-- PDFEngine.rect (pdfEngine.js lines 109-124): set fill, optionally set
stroke and a 0.3 line width, then draw with style FD or F. -/
def rectPrim (x y w h : ℚ) (fillColor : Color) (strokeColor : Option Color)
    (radius : ℚ) (r : RState) : RState × List Mark :=
  let r1 := setFillR fillColor r
  let r2 := match strokeColor with
    | some c => setLineWidthR (3/10) (setStrokeR c r1)
    | none => r1
  (r2, docRect x y w h radius strokeColor.isSome r2)

/-- PDFEngine.hrule (pdfEngine.js lines 126-133): set stroke and line
width, then draw the full-width horizontal line at the given (or current)
y. -/
def hrulePrim (yArg : Option ℚ) (curY : ℚ) (color : Color) (thickness : ℚ)
    (r : RState) : RState × List Mark :=
  let lineY := yArg.getD curY
  let r1 := setLineWidthR thickness (setStrokeR color r)
  (r1, docLine marginL lineY (pageW - marginR) lineY r1)

/-- PDFEngine.vrule (pdfEngine.js lines 135-140): set stroke and line
width, then draw the vertical line. -/
def vrulePrim (x y1 y2 : ℚ) (color : Color) (thickness : ℚ)
    (r : RState) : RState × List Mark :=
  let r1 := setLineWidthR thickness (setStrokeR color r)
  (r1, docLine x y1 x y2 r1)

/-- PDFEngine.text (pdfEngine.js lines 146-156): set font size/style/color
first, then draw the aligned text. -/
def textPrim (txt : String) (x y size : ℚ) (style : String) (color : Color)
    (align : String) (r : RState) : RState × List Mark :=
  let r1 := setFontR size style color r
  (r1, docText txt x y align r1)

/-- PDFEngine.writeLine (pdfEngine.js lines 158-172): set font first, then
draw at the cursor. -/
def writeLinePrim (txt : String) (xPos curY size : ℚ) (style : String)
    (color : Color) (align : String) (r : RState) : RState × List Mark :=
  let r1 := setFontR size style color r
  (r1, docText txt xPos curY align r1)

/-- PDFEngine.writeWrapped (pdfEngine.js lines 174-185): set font first,
split the text to the width (the split depends on the text, width and the
just-set font), then draw the lines. -/
def writeWrappedPrim (split : String → ℚ → ℚ → String → List String)
    (txt : String) (x y maxW size : ℚ) (style : String) (color : Color)
    (r : RState) : RState × List Mark :=
  let r1 := setFontR size style color r
  (r1, (split txt maxW size style).flatMap (fun ln => docText ln x y "left" r1))

/-- C9: every drawing primitive sets the renderer state it uses before
drawing, so the marks produced are identical from any two pre-existing
renderer states — no primitive depends on color, font or line-width state
persisting from a previous call. -/
theorem primitives_state_independent
    (split : String → ℚ → ℚ → String → List String) (r1 r2 : RState) :
    (∀ x y w h fc sc rad,
      (rectPrim x y w h fc sc rad r1).2 = (rectPrim x y w h fc sc rad r2).2) ∧
    (∀ yArg curY c th,
      (hrulePrim yArg curY c th r1).2 = (hrulePrim yArg curY c th r2).2) ∧
    (∀ x ya yb c th,
      (vrulePrim x ya yb c th r1).2 = (vrulePrim x ya yb c th r2).2) ∧
    (∀ t x y sz st c al,
      (textPrim t x y sz st c al r1).2 = (textPrim t x y sz st c al r2).2) ∧
    (∀ t x curY sz st c al,
      (writeLinePrim t x curY sz st c al r1).2 =
        (writeLinePrim t x curY sz st c al r2).2) ∧
    (∀ t x y mw sz st c,
      (writeWrappedPrim split t x y mw sz st c r1).2 =
        (writeWrappedPrim split t x y mw sz st c r2).2) := by
  refine ⟨?_, ?_, ?_, ?_, ?_, ?_⟩
  · intro x y w h fc sc rad
    cases sc <;>
      simp [rectPrim, docRect, setFillR, setStrokeR, setLineWidthR]
  · intro yArg curY c th
    simp [hrulePrim, docLine, setStrokeR, setLineWidthR]
  · intro x ya yb c th
    simp [vrulePrim, docLine, setStrokeR, setLineWidthR]
  · intro t x y sz st c al
    simp [textPrim, docText, setFontR]
  · intro t x curY sz st c al
    simp [writeLinePrim, docText, setFontR]
  · intro t x y mw sz st c
    simp [writeWrappedPrim, docText, setFontR]

/-! ## Claim C5: multi-page tables -/

/-- Every continuation page of a table run fires the page hook, and page
numbers count up from the starting page. -/
theorem contPages_spec (rh hh L T : ℚ) :
    ∀ (m i p : ℕ),
      ((contPages rh hh L T i m p).map (fun tp => tp.pageNo) =
        List.range' p (contPages rh hh L T i m p).length) ∧
      (∀ tp ∈ contPages rh hh L T i m p, tp.hookFired = true ∧ p ≤ tp.pageNo) := by
  intro m
  induction m using Nat.strong_induction_on with
  | _ m ih =>
      intro i p
      match m with
      | 0 => simp [contPages]
      | Nat.succ mm =>
          rw [contPages]
          have hk : 1 ≤ max (fitCount (T + hh) rh L (mm + 1)) 1 := le_max_right _ _
          have hrec := ih (mm + 1 - max (fitCount (T + hh) rh L (mm + 1)) 1)
            (by omega) (i + max (fitCount (T + hh) rh L (mm + 1)) 1) (p + 1)
          constructor
          · simp only [List.map_cons, List.length_cons, List.range'_succ]
            rw [hrec.1]
          · intro tp htp
            simp only [List.mem_cons] at htp
            rcases htp with rfl | htp
            · exact ⟨rfl, le_refl p⟩
            · have h2 := hrec.2 tp htp
              exact ⟨h2.1, by omega⟩

/-- Fold of ghost-instrumented callback invocations counts them. -/
theorem foldl_invokeHdrFn (f : HeaderFn) (hf : ∀ t, (f t).hdrCalls = t.hdrCalls) :
    ∀ (l : List ℕ) (s : Engine),
      (l.foldl (fun acc _ => invokeHdrFn f acc) s).hdrCalls = s.hdrCalls + l.length := by
  intro l
  induction l with
  | nil => intro s; rfl
  | cons a t iht =>
      intro s
      rw [List.foldl_cons, iht]
      show (f s).hdrCalls + 1 + t.length = s.hdrCalls + (t.length + 1)
      rw [hf s]
      omega

/-- C5: a table call that spans several pages invokes the supplied
continuation-header callback exactly once for each page after the first
that the table occupies (the ghost counter grows by pages − 1, the
occupied pages are exactly 1..pageCount, page 1 fires no hook, and every
later page's event list starts with its hook — before that page's rows);
after table() returns, the engine cursor sits 4mm below the table's final
row, on the last page the table occupies (currentPage advanced by
pages − 1). -/
theorem table_continuation_and_cursor (nRows : ℕ) (rowH headerH : ℚ)
    (f : HeaderFn) (s : Engine) (hf : ∀ t, (f t).hdrCalls = t.hdrCalls) :
    (tableOp nRows rowH headerH (some f) s).hdrCalls =
      s.hdrCalls + ((tableRun rowH headerH bottomLimit marginT s.y nRows).length - 1) ∧
    ((tableRun rowH headerH bottomLimit marginT s.y nRows).map (fun tp => tp.pageNo) =
      List.range' 1 (tableRun rowH headerH bottomLimit marginT s.y nRows).length) ∧
    (∀ tp ∈ tableRun rowH headerH bottomLimit marginT s.y nRows,
      (tp.pageNo = 1 → tp.hookFired = false ∧ pageEvents tp =
        TEv.headerDrawn tp.pageNo ::
          tp.rowIdxs.map (fun i => TEv.rowDrawn i tp.pageNo)) ∧
      (2 ≤ tp.pageNo → tp.hookFired = true ∧ pageEvents tp =
        TEv.hook tp.pageNo :: TEv.headerDrawn tp.pageNo ::
          tp.rowIdxs.map (fun i => TEv.rowDrawn i tp.pageNo))) ∧
    (tableOp nRows rowH headerH (some f) s).y =
      tableFinalY (tableRun rowH headerH bottomLimit marginT s.y nRows) + 4 ∧
    (tableOp nRows rowH headerH (some f) s).currentPage =
      s.currentPage +
        ((tableRun rowH headerH bottomLimit marginT s.y nRows).length - 1) := by
  have hcont := contPages_spec rowH headerH bottomLimit marginT
    (nRows - fitCount (s.y + headerH) rowH bottomLimit nRows)
    (fitCount (s.y + headerH) rowH bottomLimit nRows) 2
  refine ⟨?_, ?_, ?_, rfl, rfl⟩
  · show ((List.range _).foldl (fun acc _ => invokeHdrFn f acc) s).hdrCalls =
      s.hdrCalls + _
    rw [foldl_invokeHdrFn f hf, List.length_range]
  · show (1 :: (contPages _ _ _ _ _ _ 2).map (fun tp => tp.pageNo)) =
      List.range' 1 ((contPages _ _ _ _ _ _ 2).length + 1)
    rw [List.range'_succ, hcont.1]
  · intro tp htp
    simp only [tableRun, List.mem_cons] at htp
    rcases htp with rfl | htp
    · refine ⟨fun _ => ⟨rfl, by simp [pageEvents]⟩, fun h2 => ?_⟩
      simp at h2
    · have h2 := hcont.2 tp htp
      refine ⟨fun h1 => ?_, fun _ => ⟨h2.1, ?_⟩⟩
      · omega
      · simp [pageEvents, h2.1]

/-- Witness for C5 on a concrete three-row table: with 100mm rows and an
8mm header row starting at the top margin, two rows fit on the first page
and the third spills onto a second page, so the continuation header runs
once and the cursor ends just below the last row. -/
theorem table_continuation_witness :
    (∀ t, (contHeader t).hdrCalls = t.hdrCalls) ∧
    ((tableOp 3 100 8 (some contHeader) initEngine).hdrCalls =
      initEngine.hdrCalls +
        ((tableRun 100 8 bottomLimit marginT initEngine.y 3).length - 1) ∧
      ((tableRun 100 8 bottomLimit marginT initEngine.y 3).map (fun tp => tp.pageNo) =
        List.range' 1 (tableRun 100 8 bottomLimit marginT initEngine.y 3).length) ∧
      (∀ tp ∈ tableRun 100 8 bottomLimit marginT initEngine.y 3,
        (tp.pageNo = 1 → tp.hookFired = false ∧ pageEvents tp =
          TEv.headerDrawn tp.pageNo ::
            tp.rowIdxs.map (fun i => TEv.rowDrawn i tp.pageNo)) ∧
        (2 ≤ tp.pageNo → tp.hookFired = true ∧ pageEvents tp =
          TEv.hook tp.pageNo :: TEv.headerDrawn tp.pageNo ::
            tp.rowIdxs.map (fun i => TEv.rowDrawn i tp.pageNo))) ∧
      (tableOp 3 100 8 (some contHeader) initEngine).y =
        tableFinalY (tableRun 100 8 bottomLimit marginT initEngine.y 3) + 4 ∧
      (tableOp 3 100 8 (some contHeader) initEngine).currentPage =
        initEngine.currentPage +
          ((tableRun 100 8 bottomLimit marginT initEngine.y 3).length - 1)) :=
  ⟨fun _ => rfl,
    table_continuation_and_cursor 3 100 8 contHeader initEngine (fun _ => rfl)⟩

/-- Concrete evaluation backing the C5 witness: the three-row table above
really spans two pages, leaves the cursor at 124 (last row ends at 120),
and runs the continuation header once. -/
theorem table_concrete_evaluation :
    tableRun 100 8 bottomLimit marginT initEngine.y 3 =
      [{ pageNo := 1, hookFired := false, rowIdxs := [0, 1], endY := 220 },
       { pageNo := 2, hookFired := true, rowIdxs := [2], endY := 120 }] ∧
    (tableOp 3 100 8 (some contHeader) initEngine).y = 124 ∧
    (tableOp 3 100 8 (some contHeader) initEngine).hdrCalls = 1 := by
  have hfit : fitCount (initEngine.y + 8) 100 bottomLimit 3 = 2 := by
    norm_num [fitCount, initEngine, marginT, bottomLimit, pageH, marginB, footerHeight]
  have hfit2 : fitCount (marginT + 8) 100 bottomLimit 1 = 1 := by
    norm_num [fitCount, marginT, bottomLimit, pageH, marginB, footerHeight]
  have hrun : tableRun 100 8 bottomLimit marginT initEngine.y 3 =
      [{ pageNo := 1, hookFired := false, rowIdxs := [0, 1], endY := 220 },
       { pageNo := 2, hookFired := true, rowIdxs := [2], endY := 120 }] := by
    rw [tableRun]
    rw [hfit]
    rw [show (3 : ℕ) - 2 = 1 from rfl]
    rw [contPages, hfit2]
    rw [show max 1 1 = 1 from rfl]
    rw [show (1 : ℕ) - 1 = 0 from rfl, contPages]
    norm_num [initEngine, marginT, List.range_succ, List.range']
  refine ⟨hrun, ?_, ?_⟩
  · show tableFinalY (tableRun 100 8 bottomLimit marginT initEngine.y 3) + 4 = 124
    rw [hrun]
    norm_num [tableFinalY]
  · show ((List.range ((tableRun 100 8 bottomLimit marginT initEngine.y 3).length - 1)).foldl
      (fun acc _ => invokeHdrFn contHeader acc) initEngine).hdrCalls = 1
    rw [hrun]
    rfl

end StitchFlow
